import Mathlib

/-!
Verification of the cold-start prediction core of `backend/server.py`
(`ColdStartPredictor`): the pattern analyzer (`_analyze_job_pattern`,
`_detect_burst_pattern`) and the prediction generator
(`_generate_prediction`, the pure tail of `predict_next_jobs`).

Modelling conventions:
* Timestamps and all derived quantities (inter-arrival gaps, means,
  variances, time deltas) are exact rationals `ℚ`, in seconds; the
  Python code computes with floats, which the specification reads as
  real numbers.
* `np.mean` / `np.std` are the population mean and population standard
  deviation.  The standard deviation itself is irrational in general,
  so the embedding keeps the (rational) population *variance* and
  compares it against the square of the threshold: for `0 ≤ v`,
  `Real.sqrt v < c  ↔  0 < c ∧ v < c ^ 2` (proved below as
  `stdLtCond_iff_sqrt`), which makes the classifier computable while
  the theorems are phrased with `Real.sqrt`, exactly as the source's
  `std_interval < avg_interval * 0.1`.
* For the same reason the irregular branch stores the *square* of the
  coefficient of variation (`variability = std/avg` in the source) in
  the field `variabilitySq`; `std/avg = Real.sqrt variabilitySq`
  whenever `0 < avg`.
* The `kind` strings of the source (`"insufficient_data"`, `"cron"`,
  `"bursty"`, `"on_demand"`) become the closed inductive `PatternKind`
  with constructors named as in the specification's data model:
  `insufficient_data`, `periodic` (source `"cron"`), `bursty`,
  `irregular` (source `"on_demand"`).
* Python's stable `sorted(..., key=confidence, reverse=True)` is
  embedded as a stable insertion sort by descending confidence
  (`sortByConfidenceDesc`); stability and sortedness are proved, which
  pins the output down to exactly what any stable descending sort —
  timsort included — produces.
-/

namespace ColdStart

/-- One observed job run: `JobExecution` of `backend/server.py`.
`timestamp` is in seconds (the code's `datetime`, which subtracts to
`total_seconds()`). -/
structure JobExecution where
  job_id : String
  timestamp : ℚ
  duration_ms : ℤ
  retries : ℤ
  status : String
  compute_time_sec : ℚ
  job_type : String
deriving DecidableEq

/-- The closed set of pattern kinds.  Source strings: `insufficient_data`,
`cron` (spec name: periodic), `bursty`, `on_demand` (spec name: irregular). -/
inductive PatternKind where
  | insufficient_data
  | periodic
  | bursty
  | irregular
deriving DecidableEq

/-- The analyzer's verdict for one job: the dict returned by
`_analyze_job_pattern`.  Optional fields model keys present only in some
branches.  `variabilitySq` holds the square of the source's
`variability = std/avg` (see the file header). -/
structure PatternSummary where
  kind : PatternKind
  confidence : ℚ
  interval_seconds : Option ℚ
  next_predicted : Option ℚ
  avg_interval : Option ℚ
  variabilitySq : Option ℚ
deriving DecidableEq

/-- The `PredictionResult` model of `backend/server.py`. -/
structure PredictionResult where
  job_id : String
  predicted_run_time_window : String
  confidence_score : ℚ
  action : String
  reasoning : String
deriving DecidableEq

/-- Population mean, `np.mean` (on the empty list the code never calls it;
`ℚ` division by zero yields 0). -/
def mean (l : List ℚ) : ℚ := l.sum / l.length

/-- Population variance: the square of `np.std` (ddof = 0). -/
def variance (l : List ℚ) : ℚ := mean (l.map (fun x => (x - mean l) ^ 2))

/-- The list of inter-arrival gaps in seconds between consecutive records:
`intervals` of `_analyze_job_pattern`. -/
def intervalsOf (l : List JobExecution) : List ℚ :=
  List.zipWith (fun a b => b.timestamp - a.timestamp) l l.tail

/-- Timestamp of the last record (`executions[-1].timestamp`); 0 on the
empty list, which the code never reaches. -/
def lastTimestamp (l : List JobExecution) : ℚ :=
  (l.getLast?.map JobExecution.timestamp).getD 0

/-- The comparison `std < c` of the source, expressed on the variance `v`
(`std = √v`): over the reals, for `0 ≤ v`, `√v < c ↔ 0 < c ∧ v < c ^ 2`. -/
def stdLtCond (v c : ℚ) : Bool := decide (0 < c) && decide (v < c ^ 2)

/-- The window count `sum(1 for e in executions if window_start <= e.timestamp <= window_end)`
with `window_end = window_start + 10 minutes`, both ends inclusive. -/
def countInWindow (l : List JobExecution) (start : ℚ) : Nat :=
  (l.filter (fun e => decide (start ≤ e.timestamp) && decide (e.timestamp ≤ start + 600))).length

/-- The source's `_detect_burst_pattern`: fewer than 5 records is never bursty;
otherwise anchor a 10-minute window at each record's timestamp, count the
records inside, and test whether the maximum count reaches 3. -/
def detectBurstPattern (l : List JobExecution) : Bool :=
  if l.length < 5 then false
  else 3 ≤ (l.map (fun e => countInWindow l e.timestamp)).foldl max 0

/-- The source's `_analyze_job_pattern` on one job's records (the caller has sorted them
ascending by timestamp).  `avg` and `var` of the source's `intervals` are
written out as `mean (intervalsOf executions)` and
`variance (intervalsOf executions)`. -/
def analyzeJobPattern (executions : List JobExecution) : PatternSummary :=
  if executions.length < 2 then
    ⟨.insufficient_data, 1/10, none, none, none, none⟩
  else if (intervalsOf executions).isEmpty then
    ⟨.insufficient_data, 1/10, none, none, none, none⟩
  else if stdLtCond (variance (intervalsOf executions))
      (mean (intervalsOf executions) * (1/10)) && decide (3 ≤ executions.length) then
    ⟨.periodic, 9/10, some (mean (intervalsOf executions)),
      some (lastTimestamp executions + mean (intervalsOf executions)), none, none⟩
  else if detectBurstPattern executions then
    ⟨.bursty, 7/10, none, none, none, none⟩
  else
    ⟨.irregular, 4/10, none, none, some (mean (intervalsOf executions)),
      some (if 0 < mean (intervalsOf executions) then
        variance (intervalsOf executions) / (mean (intervalsOf executions)) ^ 2 else 1)⟩

/-- The source's periodic (cron) test as a proposition:
`std_interval < avg_interval * 0.1 and len(executions) >= 3`. -/
def periodicCond (l : List JobExecution) : Prop :=
  stdLtCond (variance (intervalsOf l)) (mean (intervalsOf l) * (1/10)) = true ∧
    3 ≤ l.length

instance (l : List JobExecution) : Decidable (periodicCond l) := by
  unfold periodicCond; infer_instance

/-- Python's `int()` on a real value: truncation toward zero. -/
def pythonInt (x : ℚ) : ℤ := if 0 ≤ x then ⌊x⌋ else ⌈x⌉

/-- Python's float `%` with a positive divisor: `x % y = x - y * ⌊x / y⌋`. -/
def qmod (x y : ℚ) : ℚ := x - y * ⌊x / y⌋

/-- The `02d` format: zero-pad a one-digit value to two digits. -/
def pad2 (n : ℤ) : String :=
  if 0 ≤ n ∧ n < 10 then "0" ++ toString n else toString n

/-- The `.0f` float format: round to the nearest integer, ties to even. -/
def roundHalfToEven (q : ℚ) : ℤ :=
  let f := ⌊q⌋
  let r := q - f
  if r < 1/2 then f
  else if 1/2 < r then f + 1
  else if f % 2 = 0 then f else f + 1

/-- The window string `f"{int(time_diff/60)}:{int(time_diff%60):02d} minutes"`. -/
def minutesSecondsWindow (timeDiff : ℚ) : String :=
  toString (pythonInt (timeDiff / 60)) ++ ":" ++ pad2 (pythonInt (qmod timeDiff 60))
    ++ " minutes"

/-- The reasoning string `f"Cron pattern detected with {pattern['interval_seconds']:.0f}s intervals"`.
(The source raises `KeyError` when `interval_seconds` is absent; the analyzer
always sets it together with `next_predicted`, and no claim depends on the
absent case, which we render with a 0 default.) -/
def cronReasoning (interval : Option ℚ) : String :=
  "Cron pattern detected with " ++ toString (roundHalfToEven (interval.getD 0))
    ++ "s intervals"

/-- The source's `_generate_prediction`: the per-summary decision rule of the generator. -/
def generatePrediction (jobId : String) (pattern : PatternSummary) (currentTime : ℚ) :
    Option PredictionResult :=
  match pattern.kind, pattern.next_predicted with
  | .periodic, some nextRun =>
      let timeDiff := nextRun - currentTime
      if 0 ≤ timeDiff ∧ timeDiff ≤ 300 then
        some { job_id := jobId
               predicted_run_time_window := minutesSecondsWindow timeDiff
               confidence_score := pattern.confidence
               action := if 7/10 < pattern.confidence then "prewarm" else "skip"
               reasoning := cronReasoning pattern.interval_seconds }
      else none
  | .bursty, _ =>
      if 6/10 < pattern.confidence then
        some { job_id := jobId
               predicted_run_time_window := "1-3 minutes"
               confidence_score := pattern.confidence
               action := "prewarm"
               reasoning := "Burst pattern detected - high activity expected" }
      else none
  | _, _ => none

/-- The prediction-collection loop of `predict_next_jobs`: iterate the
per-job summaries in order (Python dict iteration is insertion order) and
keep the non-`None` predictions. -/
def generateAll (patterns : List (String × PatternSummary)) (t : ℚ) :
    List PredictionResult :=
  patterns.filterMap (fun p => generatePrediction p.1 p.2 t)

/-- Stable insertion into a list sorted by descending confidence: a new
(later) element is placed after every element of confidence ≥ its own. -/
def insertDesc (x : PredictionResult) : List PredictionResult → List PredictionResult
  | [] => [x]
  | y :: ys =>
      if x.confidence_score ≤ y.confidence_score then y :: insertDesc x ys
      else x :: y :: ys

/-- The sort `sorted(predictions, key=lambda x: x.confidence_score, reverse=True)`:
Python's `sorted` is stable, and a stable sort by one key is uniquely
determined, so this stable insertion sort is extensionally the same
function. -/
def sortByConfidenceDesc (l : List PredictionResult) : List PredictionResult :=
  l.foldl (fun acc x => insertDesc x acc) []

/-- The pure tail of `predict_next_jobs`: from per-job summaries (keyed by
job id, in first-appearance order) and the current time to the ranked
prediction list. -/
def predictNextJobs (patterns : List (String × PatternSummary)) (t : ℚ) :
    List PredictionResult :=
  sortByConfidenceDesc (generateAll patterns t)

/-! ### Arithmetic facts about the embedded statistics -/

theorem mean_nonneg {l : List ℚ} (h : ∀ x ∈ l, 0 ≤ x) : 0 ≤ mean l :=
  div_nonneg (List.sum_nonneg h) (Nat.cast_nonneg _)

theorem variance_nonneg (l : List ℚ) : 0 ≤ variance l := by
  refine mean_nonneg ?_
  intro x hx
  rcases List.mem_map.mp hx with ⟨y, _, rfl⟩
  positivity

/-- The square-comparison `stdLtCond` is exactly the source's
`std < c` where `std = √v`. -/
theorem stdLtCond_iff_sqrt {v c : ℚ} :
    stdLtCond v c = true ↔ Real.sqrt (v : ℝ) < (c : ℝ) := by
  unfold stdLtCond
  rw [Bool.and_eq_true, decide_eq_true_eq, decide_eq_true_eq]
  constructor
  · rintro ⟨hc, hlt⟩
    have hc' : (0 : ℝ) < (c : ℝ) := by exact_mod_cast hc
    rw [Real.sqrt_lt' hc']
    exact_mod_cast hlt
  · intro h
    have hc' : (0 : ℝ) < (c : ℝ) := lt_of_le_of_lt (Real.sqrt_nonneg _) h
    refine ⟨by exact_mod_cast hc', ?_⟩
    have := (Real.sqrt_lt' hc').mp h
    exact_mod_cast this

theorem length_intervalsOf (l : List JobExecution) :
    (intervalsOf l).length = l.length - 1 := by
  unfold intervalsOf
  rw [List.length_zipWith, List.length_tail]
  omega

theorem sum_const_list {l : List ℚ} {g : ℚ} (h : ∀ x ∈ l, x = g) :
    l.sum = g * l.length := by
  induction l with
  | nil => simp
  | cons a t ih =>
      have ha : a = g := h a (by simp)
      have ht : ∀ x ∈ t, x = g := fun x hx => h x (by simp [hx])
      rw [List.sum_cons, ih ht, ha, List.length_cons]
      push_cast
      ring

theorem mean_const {l : List ℚ} {g : ℚ} (hne : l ≠ []) (h : ∀ x ∈ l, x = g) :
    mean l = g := by
  have hlen : (l.length : ℚ) ≠ 0 := by
    have := List.length_pos.mpr hne
    exact Nat.cast_ne_zero.mpr (by omega)
  unfold mean
  rw [sum_const_list h, mul_div_assoc, div_self hlen, mul_one]

theorem variance_const {l : List ℚ} {g : ℚ} (hne : l ≠ []) (h : ∀ x ∈ l, x = g) :
    variance l = 0 := by
  unfold variance
  refine mean_const (by simpa using hne) ?_
  intro x hx
  rcases List.mem_map.mp hx with ⟨y, hy, rfl⟩
  rw [h y hy, mean_const hne h]
  ring

/-! ### The burst detector -/

theorem le_foldl_max (n : ℕ) :
    ∀ (l : List ℕ) (a : ℕ), n ≤ l.foldl max a ↔ n ≤ a ∨ ∃ x ∈ l, n ≤ x := by
  intro l
  induction l with
  | nil => simp
  | cons b t ih =>
      intro a
      rw [List.foldl_cons, ih]
      constructor
      · rintro (h | ⟨x, hx, hnx⟩)
        · rcases le_max_iff.mp h with h' | h'
          · exact Or.inl h'
          · exact Or.inr ⟨b, by simp, h'⟩
        · exact Or.inr ⟨x, by simp [hx], hnx⟩
      · rintro (h | ⟨x, hx, hnx⟩)
        · exact Or.inl (le_max_of_le_left h)
        · rcases List.mem_cons.mp hx with rfl | hx'
          · exact Or.inl (le_max_of_le_right hnx)
          · exact Or.inr ⟨x, hx', hnx⟩

/-- The burst test in terms of the source's window counter: at least 5
records, and some record anchors a window containing 3 or more records. -/
theorem detectBurstPattern_iff (l : List JobExecution) :
    detectBurstPattern l = true ↔
      5 ≤ l.length ∧ ∃ e ∈ l, 3 ≤ countInWindow l e.timestamp := by
  unfold detectBurstPattern
  split
  · rename_i hlen
    simp only [Bool.false_eq_true, false_iff, not_and]
    intro h5
    omega
  · rename_i hlen
    rw [decide_eq_true_eq, le_foldl_max]
    simp only [List.mem_map]
    constructor
    · rintro (h3 | ⟨x, ⟨e, he, rfl⟩, hx⟩)
      · omega
      · exact ⟨by omega, e, he, hx⟩
    · rintro ⟨_, e, he, hc⟩
      exact Or.inr ⟨countInWindow l e.timestamp, ⟨e, he, rfl⟩, hc⟩

/-- The window counter agrees with the specification's phrasing of a
10-minute window, inclusive of both endpoints. -/
theorem countInWindow_eq_countP (l : List JobExecution) (start : ℚ) :
    countInWindow l start =
      l.countP (fun r => decide (start ≤ r.timestamp ∧ r.timestamp ≤ start + 600)) := by
  unfold countInWindow
  rw [← List.countP_eq_length_filter]
  congr 1
  funext r
  simp [Bool.decide_and]

/-! ### Branch lemmas for the analyzer -/

theorem analyze_insufficient {l : List JobExecution} (h : l.length < 2) :
    analyzeJobPattern l = ⟨.insufficient_data, 1/10, none, none, none, none⟩ := by
  unfold analyzeJobPattern
  rw [if_pos h]

theorem intervals_not_isEmpty {l : List JobExecution} (h : 2 ≤ l.length) :
    ¬ (intervalsOf l).isEmpty = true := by
  rw [List.isEmpty_iff, ← List.length_eq_zero, length_intervalsOf]
  omega

theorem analyze_periodic {l : List JobExecution} (hp : periodicCond l) :
    analyzeJobPattern l = ⟨.periodic, 9/10, some (mean (intervalsOf l)),
      some (lastTimestamp l + mean (intervalsOf l)), none, none⟩ := by
  obtain ⟨hstd, h3⟩ := hp
  unfold analyzeJobPattern
  rw [if_neg (by omega : ¬ l.length < 2), if_neg (intervals_not_isEmpty (by omega)),
    if_pos (by rw [Bool.and_eq_true, decide_eq_true_eq]; exact ⟨hstd, h3⟩)]

theorem analyze_bursty {l : List JobExecution} (h2 : 2 ≤ l.length)
    (hp : ¬ periodicCond l) (hb : detectBurstPattern l = true) :
    analyzeJobPattern l = ⟨.bursty, 7/10, none, none, none, none⟩ := by
  unfold analyzeJobPattern
  rw [if_neg (by omega : ¬ l.length < 2), if_neg (intervals_not_isEmpty h2),
    if_neg (by rw [Bool.and_eq_true, decide_eq_true_eq]; exact hp), if_pos hb]

theorem analyze_irregular {l : List JobExecution} (h2 : 2 ≤ l.length)
    (hp : ¬ periodicCond l) (hb : detectBurstPattern l = false) :
    analyzeJobPattern l = ⟨.irregular, 4/10, none, none, some (mean (intervalsOf l)),
      some (if 0 < mean (intervalsOf l) then
        variance (intervalsOf l) / (mean (intervalsOf l)) ^ 2 else 1)⟩ := by
  unfold analyzeJobPattern
  rw [if_neg (by omega : ¬ l.length < 2), if_neg (intervals_not_isEmpty h2),
    if_neg (by rw [Bool.and_eq_true, decide_eq_true_eq]; exact hp),
    if_neg (by simp [hb])]

/-- The analyzer always lands in one of the four summary shapes. -/
theorem analyzeJobPattern_shape (l : List JobExecution) :
    analyzeJobPattern l = ⟨.insufficient_data, 1/10, none, none, none, none⟩ ∨
    (∃ a b, analyzeJobPattern l = ⟨.periodic, 9/10, some a, some b, none, none⟩) ∨
    analyzeJobPattern l = ⟨.bursty, 7/10, none, none, none, none⟩ ∨
    (∃ a v, analyzeJobPattern l = ⟨.irregular, 4/10, none, none, some a, some v⟩) := by
  by_cases h2 : l.length < 2
  · exact Or.inl (analyze_insufficient h2)
  · by_cases hp : periodicCond l
    · exact Or.inr (Or.inl ⟨_, _, analyze_periodic hp⟩)
    · cases hb : detectBurstPattern l
      · exact Or.inr (Or.inr (Or.inr ⟨_, _, analyze_irregular (by omega) hp hb⟩))
      · exact Or.inr (Or.inr (Or.inl (analyze_bursty (by omega) hp hb)))

/-! ### The generator -/

theorem pythonInt_eq_floor {x : ℚ} (h : 0 ≤ x) : pythonInt x = ⌊x⌋ := if_pos h

theorem qmod_nonneg {x y : ℚ} (hx : 0 ≤ x) (hy : 0 < y) : 0 ≤ qmod x y := by
  unfold qmod
  have h := Int.floor_le (x / y)
  have : y * ⌊x / y⌋ ≤ y * (x / y) := by
    exact mul_le_mul_of_nonneg_left h (le_of_lt hy)
  rw [mul_div_cancel₀ x (ne_of_gt hy)] at this
  linarith

/-- Any emitted prediction carries the job id it was generated for. -/
theorem generatePrediction_job_id {jid : String} {s : PatternSummary} {t : ℚ}
    {p : PredictionResult} (h : generatePrediction jid s t = some p) :
    p.job_id = jid := by
  unfold generatePrediction at h
  rcases hk : s.kind <;> rcases hn : s.next_predicted <;> rw [hk, hn] at h
  all_goals
    repeat
      first
        | exact Option.noConfusion h
        | (rcases Option.some.inj h with rfl; rfl)
        | split at h
        | dsimp only [] at h

/-- Summaries of kind `insufficient_data` or `irregular` never yield a
prediction. -/
theorem generatePrediction_ineligible {jid : String} {s : PatternSummary} {t : ℚ}
    (h : s.kind = .insufficient_data ∨ s.kind = .irregular) :
    generatePrediction jid s t = none := by
  unfold generatePrediction
  rcases h with h | h <;> rw [h] <;> rfl

/-- Unfolding equation of `generatePrediction` on a periodic summary. -/
theorem generatePrediction_periodic (jid : String) (conf : ℚ) (iv : Option ℚ)
    (np : ℚ) (av vv : Option ℚ) (t : ℚ) :
    generatePrediction jid ⟨.periodic, conf, iv, some np, av, vv⟩ t =
      if 0 ≤ np - t ∧ np - t ≤ 300 then
        some ⟨jid, minutesSecondsWindow (np - t), conf,
          if 7/10 < conf then "prewarm" else "skip", cronReasoning iv⟩
      else none := rfl

/-- Unfolding equation of `generatePrediction` on a bursty summary. -/
theorem generatePrediction_bursty (jid : String) (conf : ℚ) (iv nx av vv : Option ℚ)
    (t : ℚ) :
    generatePrediction jid ⟨.bursty, conf, iv, nx, av, vv⟩ t =
      if 6/10 < conf then
        some ⟨jid, "1-3 minutes", conf, "prewarm",
          "Burst pattern detected - high activity expected"⟩
      else none := by
  cases nx <;> rfl

/-! ### The stable descending sort -/

/-- Descending order on predictions by confidence: the sort's invariant. -/
def confGe (a b : PredictionResult) : Prop :=
  b.confidence_score ≤ a.confidence_score

theorem mem_insertDesc {x z : PredictionResult} {l : List PredictionResult} :
    z ∈ insertDesc x l ↔ z = x ∨ z ∈ l := by
  induction l with
  | nil => simp [insertDesc]
  | cons y ys ih =>
      unfold insertDesc
      split
      · rw [List.mem_cons, ih, List.mem_cons]
        tauto
      · simp only [List.mem_cons]

theorem insertDesc_perm (x : PredictionResult) (l : List PredictionResult) :
    (insertDesc x l).Perm (x :: l) := by
  induction l with
  | nil => simp [insertDesc]
  | cons y ys ih =>
      unfold insertDesc
      split
      · exact (ih.cons y).trans (List.Perm.swap x y ys)
      · exact List.Perm.refl _

theorem insertDesc_pairwise {x : PredictionResult} {l : List PredictionResult}
    (h : l.Pairwise confGe) : (insertDesc x l).Pairwise confGe := by
  induction l with
  | nil => simp [insertDesc]
  | cons y ys ih =>
      rcases List.pairwise_cons.mp h with ⟨hy, hys⟩
      unfold insertDesc
      split
      · rename_i hle
        refine List.pairwise_cons.mpr ⟨?_, ih hys⟩
        intro z hz
        rcases mem_insertDesc.mp hz with rfl | hz'
        · exact hle
        · exact hy z hz'
      · rename_i hgt
        refine List.pairwise_cons.mpr ⟨?_, h⟩
        intro z hz
        rcases List.mem_cons.mp hz with rfl | hz'
        · exact le_of_not_le (by simpa using hgt)
        · exact le_trans (hy z hz') (le_of_not_le (by simpa using hgt))

/-- Stability of one insertion: the elements of any fixed confidence `c`
keep their relative order, the new element (if of confidence `c`) going
last.  Needs the accumulator sorted, which the sort maintains. -/
theorem insertDesc_filter {x : PredictionResult} {l : List PredictionResult}
    (c : ℚ) (h : l.Pairwise confGe) :
    (insertDesc x l).filter (fun p => decide (p.confidence_score = c)) =
      if x.confidence_score = c then
        l.filter (fun p => decide (p.confidence_score = c)) ++ [x]
      else l.filter (fun p => decide (p.confidence_score = c)) := by
  induction l with
  | nil =>
      unfold insertDesc
      by_cases hxc : x.confidence_score = c <;> simp [List.filter_cons, hxc]
  | cons y ys ih =>
      rcases List.pairwise_cons.mp h with ⟨hy, hys⟩
      unfold insertDesc
      split
      · rename_i hle
        rw [List.filter_cons, List.filter_cons, ih hys]
        split <;> rename_i hxc <;> split <;> rename_i hyc <;> simp_all
      · rename_i hgt
        have hyx : y.confidence_score < x.confidence_score := by simpa using hgt
        by_cases hxc : x.confidence_score = c
        · have hnil : (y :: ys).filter (fun p => decide (p.confidence_score = c)) = [] := by
            rw [List.filter_eq_nil_iff]
            intro z hz
            rcases List.mem_cons.mp hz with rfl | hz'
            · simp [show z.confidence_score ≠ c from ne_of_lt (hxc ▸ hyx)]
            · have hzy : z.confidence_score ≤ y.confidence_score := hy z hz'
              simp [show z.confidence_score ≠ c from
                ne_of_lt (lt_of_le_of_lt hzy (hxc ▸ hyx))]
          rw [if_pos hxc, hnil, List.nil_append, List.filter_cons,
            if_pos (by simp [hxc]), hnil]
        · rw [if_neg hxc, List.filter_cons, if_neg (by simp [hxc])]

theorem sortAux_pairwise :
    ∀ (l acc : List PredictionResult), acc.Pairwise confGe →
      (l.foldl (fun a x => insertDesc x a) acc).Pairwise confGe := by
  intro l
  induction l with
  | nil => intro acc h; simpa using h
  | cons x xs ih =>
      intro acc h
      exact ih _ (insertDesc_pairwise h)

theorem sortAux_perm :
    ∀ (l acc : List PredictionResult),
      (l.foldl (fun a x => insertDesc x a) acc).Perm (acc ++ l) := by
  intro l
  induction l with
  | nil => intro acc; simp
  | cons x xs ih =>
      intro acc
      rw [List.foldl_cons]
      refine (ih (insertDesc x acc)).trans ?_
      refine ((insertDesc_perm x acc).append_right xs).trans ?_
      simpa using (List.perm_middle).symm

theorem sortAux_filter (c : ℚ) :
    ∀ (l acc : List PredictionResult), acc.Pairwise confGe →
      (l.foldl (fun a x => insertDesc x a) acc).filter
          (fun p => decide (p.confidence_score = c)) =
        acc.filter (fun p => decide (p.confidence_score = c)) ++
          l.filter (fun p => decide (p.confidence_score = c)) := by
  intro l
  induction l with
  | nil => intro acc h; simp
  | cons x xs ih =>
      intro acc h
      rw [List.foldl_cons, ih _ (insertDesc_pairwise h), insertDesc_filter c h,
        List.filter_cons]
      by_cases hxc : x.confidence_score = c
      · rw [if_pos hxc, if_pos (by simp [hxc])]
        simp
      · rw [if_neg hxc, if_neg (by simp [hxc])]

theorem sortByConfidenceDesc_pairwise (l : List PredictionResult) :
    (sortByConfidenceDesc l).Pairwise confGe :=
  sortAux_pairwise l [] (by simp)

theorem sortByConfidenceDesc_perm (l : List PredictionResult) :
    (sortByConfidenceDesc l).Perm l := by
  simpa using sortAux_perm l []

theorem sortByConfidenceDesc_filter (c : ℚ) (l : List PredictionResult) :
    (sortByConfidenceDesc l).filter (fun p => decide (p.confidence_score = c)) =
      l.filter (fun p => decide (p.confidence_score = c)) := by
  simpa using sortAux_filter c l [] (by simp)

/-- The job ids of the generated predictions form a sublist of the input
job ids (one summary yields at most one prediction). -/
theorem generateAll_jobIds_sublist (patterns : List (String × PatternSummary)) (t : ℚ) :
    ((generateAll patterns t).map PredictionResult.job_id).Sublist
      (patterns.map Prod.fst) := by
  induction patterns with
  | nil => simp [generateAll]
  | cons q qs ih =>
      unfold generateAll
      rw [List.filterMap_cons]
      cases hg : generatePrediction q.1 q.2 t with
      | none =>
          exact (ih : _).cons q.1
      | some p =>
          rw [List.map_cons, List.map_cons, generatePrediction_job_id hg]
          exact (ih : _).cons₂ q.1

/-! ### Concrete inputs used by the witnesses -/

/-- A record with every field fixed except the timestamp; only the
timestamp feeds the classifier. -/
def sampleRec (t : ℚ) : JobExecution :=
  ⟨"job", t, 1000, 0, "success", 1, "cron"⟩

/-! ### Claims -/

/-- C1: every record group of at least 3 records, sorted ascending by
timestamp, whose inter-arrival gaps have population standard deviation
`std` and mean `avg` with `std < 0.1 * avg`, is classified periodic with
confidence 0.9, `interval_seconds = avg`, and `next_predicted` equal to
the last record's timestamp plus `avg` seconds. -/
theorem periodic_classification (l : List JobExecution)
    (hsorted : List.Chain' (fun a b => a.timestamp ≤ b.timestamp) l)
    (h3 : 3 ≤ l.length)
    (hstd : Real.sqrt ((variance (intervalsOf l) : ℚ) : ℝ) <
      (1/10 : ℝ) * ((mean (intervalsOf l) : ℚ) : ℝ)) :
    (analyzeJobPattern l).kind = .periodic ∧
    (analyzeJobPattern l).confidence = 9/10 ∧
    (analyzeJobPattern l).interval_seconds = some (mean (intervalsOf l)) ∧
    (analyzeJobPattern l).next_predicted =
      some (lastTimestamp l + mean (intervalsOf l)) := by
  have hcond : stdLtCond (variance (intervalsOf l))
      (mean (intervalsOf l) * (1/10)) = true := by
    rw [stdLtCond_iff_sqrt]
    push_cast
    linarith
  rw [analyze_periodic ⟨hcond, h3⟩]
  exact ⟨rfl, rfl, rfl, rfl⟩

/-- Witness for C1: the 3-record group at timestamps 0, 100, 200 (gaps
100, 100: std 0, mean 100). -/
theorem periodic_classification_witness :
    (analyzeJobPattern [sampleRec 0, sampleRec 100, sampleRec 200]).kind = .periodic ∧
    (analyzeJobPattern [sampleRec 0, sampleRec 100, sampleRec 200]).confidence = 9/10 ∧
    (analyzeJobPattern [sampleRec 0, sampleRec 100, sampleRec 200]).interval_seconds =
      some (mean (intervalsOf [sampleRec 0, sampleRec 100, sampleRec 200])) ∧
    (analyzeJobPattern [sampleRec 0, sampleRec 100, sampleRec 200]).next_predicted =
      some (lastTimestamp [sampleRec 0, sampleRec 100, sampleRec 200] +
        mean (intervalsOf [sampleRec 0, sampleRec 100, sampleRec 200])) :=
  periodic_classification _
    (by norm_num [List.chain'_cons, List.chain'_singleton, sampleRec])
    (by norm_num)
    (by
      have h1 : variance (intervalsOf [sampleRec 0, sampleRec 100, sampleRec 200]) = 0 := by
        norm_num [variance, mean, intervalsOf, sampleRec]
      have h2 : mean (intervalsOf [sampleRec 0, sampleRec 100, sampleRec 200]) = 100 := by
        norm_num [mean, intervalsOf, sampleRec]
      rw [h1, h2]
      norm_num [Real.sqrt_zero])

/-- C5 counterexample: three records with identical timestamps have all
inter-arrival gaps exactly equal (both gaps are 0, so the gaps' standard
deviation is 0), yet the analyzer classifies the group irregular, not
periodic: the source condition `std < avg * 0.1` reads `0 < 0` and fails. -/
theorem constant_zero_gap_not_periodic :
    intervalsOf [sampleRec 0, sampleRec 0, sampleRec 0] = [0, 0] ∧
    (analyzeJobPattern [sampleRec 0, sampleRec 0, sampleRec 0]).kind = .irregular ∧
    ¬ (analyzeJobPattern [sampleRec 0, sampleRec 0, sampleRec 0]).kind = .periodic := by
  have h : analyzeJobPattern [sampleRec 0, sampleRec 0, sampleRec 0] =
      ⟨.irregular, 4/10, none, none, some 0, some 1⟩ := by
    norm_num [analyzeJobPattern, intervalsOf, mean, variance, stdLtCond,
      detectBurstPattern, sampleRec]
  refine ⟨by norm_num [intervalsOf, sampleRec], ?_, ?_⟩ <;> rw [h] <;> simp

/-- C5 (amended): every record group of at least 3 records whose
inter-arrival gaps are all exactly equal to one *positive* constant gap
(so the gaps' standard deviation is 0) is classified periodic, with
`interval_seconds` equal to the constant gap and `next_predicted` equal
to the last record's timestamp plus that gap.  (The positivity proviso is
forced: with gap 0 the group is classified irregular, see the
counterexample.) -/
theorem constant_gap_periodic (l : List JobExecution) (g : ℚ)
    (h3 : 3 ≤ l.length) (hg : 0 < g)
    (hgaps : ∀ x ∈ intervalsOf l, x = g) :
    (analyzeJobPattern l).kind = .periodic ∧
    (analyzeJobPattern l).interval_seconds = some g ∧
    (analyzeJobPattern l).next_predicted = some (lastTimestamp l + g) := by
  have hne : intervalsOf l ≠ [] := by
    intro hnil
    have hlen := length_intervalsOf l
    rw [hnil] at hlen
    simp at hlen
    omega
  have hmean : mean (intervalsOf l) = g := mean_const hne hgaps
  have hvar : variance (intervalsOf l) = 0 := variance_const hne hgaps
  have hcond : stdLtCond (variance (intervalsOf l))
      (mean (intervalsOf l) * (1/10)) = true := by
    rw [hmean, hvar]
    unfold stdLtCond
    rw [Bool.and_eq_true, decide_eq_true_eq, decide_eq_true_eq]
    exact ⟨by positivity, by positivity⟩
  rw [analyze_periodic ⟨hcond, h3⟩, hmean]
  exact ⟨rfl, rfl, rfl⟩

/-- Witness for the amended C5: four records spaced exactly 900 s apart. -/
theorem constant_gap_periodic_witness :
    (analyzeJobPattern [sampleRec 0, sampleRec 900, sampleRec 1800, sampleRec 2700]).kind
      = .periodic ∧
    (analyzeJobPattern [sampleRec 0, sampleRec 900, sampleRec 1800, sampleRec 2700]).interval_seconds
      = some 900 ∧
    (analyzeJobPattern [sampleRec 0, sampleRec 900, sampleRec 1800, sampleRec 2700]).next_predicted
      = some (lastTimestamp [sampleRec 0, sampleRec 900, sampleRec 1800, sampleRec 2700] + 900) :=
  constant_gap_periodic _ 900 (by norm_num) (by norm_num)
    (by norm_num [intervalsOf, sampleRec])

/-- C2: for a periodic summary and reference time with
`delta = next_predicted - reference_time`, a prediction is emitted exactly
when `0 ≤ delta ≤ 300`, both boundaries inclusive; when emitted, the
window renders `delta` as minutes `:` seconds (floor of `delta/60`, and
`delta mod 60` zero-padded to two digits), the action is `prewarm`
exactly when the confidence exceeds 0.7 and `skip` otherwise, and the
confidence is copied from the summary. -/
theorem periodic_prediction_eligibility (jid : String) (s : PatternSummary)
    (t np : ℚ) (hkind : s.kind = .periodic) (hnext : s.next_predicted = some np) :
    ((generatePrediction jid s t).isSome ↔ 0 ≤ np - t ∧ np - t ≤ 300) ∧
    ∀ p, generatePrediction jid s t = some p →
      p.predicted_run_time_window =
        toString ⌊(np - t) / 60⌋ ++ ":" ++ pad2 ⌊qmod (np - t) 60⌋ ++ " minutes" ∧
      (p.action = "prewarm" ↔ 7/10 < s.confidence) ∧
      (p.action = "skip" ↔ ¬ 7/10 < s.confidence) ∧
      p.confidence_score = s.confidence := by
  have hgen : generatePrediction jid s t =
      if 0 ≤ np - t ∧ np - t ≤ 300 then
        some ⟨jid, minutesSecondsWindow (np - t), s.confidence,
          if 7/10 < s.confidence then "prewarm" else "skip",
          cronReasoning s.interval_seconds⟩
      else none := by
    unfold generatePrediction
    rw [hkind, hnext]
  constructor
  · rw [hgen]
    by_cases hc : 0 ≤ np - t ∧ np - t ≤ 300 <;> simp [hc]
  · intro p hp
    rw [hgen] at hp
    by_cases hc : 0 ≤ np - t ∧ np - t ≤ 300
    · rw [if_pos hc] at hp
      rcases Option.some.inj hp with rfl
      refine ⟨?_, ?_, ?_, rfl⟩
      · show minutesSecondsWindow (np - t) = _
        unfold minutesSecondsWindow
        rw [pythonInt_eq_floor (div_nonneg hc.1 (by norm_num)),
          pythonInt_eq_floor (qmod_nonneg hc.1 (by norm_num))]
      · show (if 7/10 < s.confidence then "prewarm" else "skip") = "prewarm" ↔ _
        by_cases ha : 7/10 < s.confidence
        · exact iff_of_true (by rw [if_pos ha]) ha
        · exact iff_of_false (by rw [if_neg ha]; decide) ha
      · show (if 7/10 < s.confidence then "prewarm" else "skip") = "skip" ↔ _
        by_cases ha : 7/10 < s.confidence
        · exact iff_of_false (by rw [if_pos ha]; decide) (by simpa using ha)
        · exact iff_of_true (by rw [if_neg ha]) ha
    · rw [if_neg hc] at hp
      exact Option.noConfusion hp

/-- Witness for C2 at the inclusive upper boundary `delta = 300`:
`next_predicted = 300`, reference time 0; the prediction is emitted with
window string `5:00 minutes` and action `prewarm` at confidence 0.9. -/
theorem periodic_prediction_eligibility_witness :
    ((generatePrediction "job" ⟨.periodic, 9/10, some 900, some 300, none, none⟩ 0).isSome
      ↔ 0 ≤ (300 : ℚ) - 0 ∧ (300 : ℚ) - 0 ≤ 300) ∧
    (generatePrediction "job" ⟨.periodic, 9/10, some 900, some 300, none, none⟩ 0).isSome ∧
    ∀ p, generatePrediction "job" ⟨.periodic, 9/10, some 900, some 300, none, none⟩ 0 = some p →
      p.predicted_run_time_window = "5:00 minutes" ∧ p.action = "prewarm" := by
  have h := periodic_prediction_eligibility "job"
    ⟨.periodic, 9/10, some 900, some 300, none, none⟩ 0 300 rfl rfl
  refine ⟨h.1, h.1.mpr (by norm_num), ?_⟩
  intro p hp
  obtain ⟨hw, hact, -, -⟩ := h.2 p hp
  refine ⟨?_, hact.mpr (by norm_num)⟩
  rw [hw]
  have h60 : ⌊((300 : ℚ) - 0) / 60⌋ = 5 := by norm_num
  have hm : qmod ((300 : ℚ) - 0) 60 = 0 := by norm_num [qmod]
  rw [h60, hm]
  rfl

/-- C4 counterexample: for a bursty summary of confidence 0.7 the
generator emits a prediction, but its window string is `1-3 minutes`,
not the claimed `imminent, within 1–3 minutes`. -/
theorem bursty_window_string_counterexample :
    (generatePrediction "job" ⟨.bursty, 7/10, none, none, none, none⟩ 0).map
        (fun p => p.predicted_run_time_window) = some "1-3 minutes" ∧
    ¬ (generatePrediction "job" ⟨.bursty, 7/10, none, none, none, none⟩ 0).map
        (fun p => p.predicted_run_time_window) = some "imminent, within 1–3 minutes" := by
  have hg : generatePrediction "job" ⟨.bursty, 7/10, none, none, none, none⟩ 0 =
      some ⟨"job", "1-3 minutes", 7/10, "prewarm",
        "Burst pattern detected - high activity expected"⟩ := by
    norm_num [generatePrediction]
  rw [hg]
  exact ⟨rfl, by decide⟩

/-- C4 (amended): for every bursty summary whose confidence exceeds 0.6,
the generator unconditionally emits a prediction whose window string is
the fixed qualitative `1-3 minutes`, whose action is `prewarm`, and whose
confidence is copied from the summary. -/
theorem bursty_prediction (jid : String) (s : PatternSummary) (t : ℚ)
    (hkind : s.kind = .bursty) (hconf : 6/10 < s.confidence) :
    generatePrediction jid s t =
      some ⟨jid, "1-3 minutes", s.confidence, "prewarm",
        "Burst pattern detected - high activity expected"⟩ := by
  unfold generatePrediction
  rcases hn : s.next_predicted <;> rw [hkind] <;> exact if_pos hconf

/-- Witness for the amended C4 at the analyzer's fixed bursty confidence
0.7 > 0.6. -/
theorem bursty_prediction_witness :
    generatePrediction "job" ⟨.bursty, 7/10, none, none, none, none⟩ 5 =
      some ⟨"job", "1-3 minutes", 7/10, "prewarm",
        "Burst pattern detected - high activity expected"⟩ :=
  bursty_prediction "job" ⟨.bursty, 7/10, none, none, none, none⟩ 5 rfl (by norm_num)

/-- C3: on a group failing the periodic test, the analyzer classifies
bursty with confidence 0.7 exactly when the group has at least 5 records
and some 10-minute window anchored at one of the records' timestamps
(both endpoints inclusive) contains 3 or more of the group's records;
and a group satisfying both the periodic and the burst criteria is
classified periodic, never bursty. -/
theorem bursty_classification (l : List JobExecution) :
    (¬ periodicCond l →
      (((analyzeJobPattern l).kind = .bursty ∧ (analyzeJobPattern l).confidence = 7/10) ↔
        (5 ≤ l.length ∧ ∃ e ∈ l, 3 ≤ l.countP
          (fun r => decide (e.timestamp ≤ r.timestamp ∧
            r.timestamp ≤ e.timestamp + 600))))) ∧
    (periodicCond l ∧ detectBurstPattern l = true →
      (analyzeJobPattern l).kind = .periodic ∧
        ¬ (analyzeJobPattern l).kind = .bursty) := by
  have hbridge : detectBurstPattern l = true ↔
      (5 ≤ l.length ∧ ∃ e ∈ l, 3 ≤ l.countP
        (fun r => decide (e.timestamp ≤ r.timestamp ∧
          r.timestamp ≤ e.timestamp + 600))) := by
    rw [detectBurstPattern_iff]
    simp only [countInWindow_eq_countP]
  constructor
  · intro hnp
    rw [← hbridge]
    constructor
    · rintro ⟨hk, -⟩
      by_cases hlen2 : l.length < 2
      · rw [analyze_insufficient hlen2] at hk
        exact PatternKind.noConfusion hk
      · cases hb : detectBurstPattern l
        · rw [analyze_irregular (by omega) hnp hb] at hk
          exact PatternKind.noConfusion hk
        · rfl
    · intro hb
      have hlen : 2 ≤ l.length := by
        have h5 := (detectBurstPattern_iff l).mp hb
        omega
      rw [analyze_bursty hlen hnp hb]
      exact ⟨rfl, rfl⟩
  · rintro ⟨hp, -⟩
    rw [analyze_periodic hp]
    exact ⟨rfl, by simp⟩

/-- Witness for C3: the clustered, aperiodic 5-record group at
timestamps 0, 10, 20, 2000, 9000 is bursty (the window anchored at 0
holds 3 records); the group at 0, 100, 200, 300, 400 satisfies both
the periodic and the burst criteria and is reported periodic. -/
theorem bursty_classification_witness :
    ((analyzeJobPattern [sampleRec 0, sampleRec 10, sampleRec 20, sampleRec 2000,
        sampleRec 9000]).kind = .bursty ∧
      (analyzeJobPattern [sampleRec 0, sampleRec 10, sampleRec 20, sampleRec 2000,
        sampleRec 9000]).confidence = 7/10) ∧
    (analyzeJobPattern [sampleRec 0, sampleRec 100, sampleRec 200, sampleRec 300,
      sampleRec 400]).kind = .periodic := by
  have hw1 : ¬ periodicCond [sampleRec 0, sampleRec 10, sampleRec 20, sampleRec 2000,
      sampleRec 9000] := by
    norm_num [periodicCond, stdLtCond, variance, mean, intervalsOf, sampleRec]
  have hw2 : periodicCond [sampleRec 0, sampleRec 100, sampleRec 200, sampleRec 300,
      sampleRec 400] ∧ detectBurstPattern [sampleRec 0, sampleRec 100, sampleRec 200,
      sampleRec 300, sampleRec 400] = true := by
    constructor
    · exact ⟨by norm_num [stdLtCond, variance, mean, intervalsOf, sampleRec], by norm_num⟩
    · norm_num [detectBurstPattern, countInWindow, sampleRec]
  refine ⟨((bursty_classification _).1 hw1).mpr ?_, ((bursty_classification _).2 hw2).1⟩
  refine ⟨by norm_num, sampleRec 0, by norm_num, ?_⟩
  norm_num [List.countP_cons, sampleRec]

/-- C6: for every record group the analyzer's summary has one of exactly
the four kinds, and a confidence in the closed interval `[0, 1]`. -/
theorem summary_invariant (l : List JobExecution) :
    (0 ≤ (analyzeJobPattern l).confidence ∧ (analyzeJobPattern l).confidence ≤ 1) ∧
    ((analyzeJobPattern l).kind = .insufficient_data ∨
      (analyzeJobPattern l).kind = .periodic ∨
      (analyzeJobPattern l).kind = .bursty ∨
      (analyzeJobPattern l).kind = .irregular) := by
  obtain h | ⟨a, b, h⟩ | h | ⟨a, v, h⟩ := analyzeJobPattern_shape l <;> rw [h] <;>
    exact ⟨by norm_num, by simp⟩

/-- C7 counterexample: a single-record group is non-empty and fails both
the periodic test (it needs at least 3 records) and the burst test (it
needs at least 5), yet the analyzer classifies it `insufficient_data`,
not `irregular` as the claim requires. -/
theorem single_record_not_irregular :
    ([sampleRec 5] : List JobExecution) ≠ [] ∧
    ¬ periodicCond [sampleRec 5] ∧
    detectBurstPattern [sampleRec 5] = false ∧
    (analyzeJobPattern [sampleRec 5]).kind = .insufficient_data ∧
    ¬ (analyzeJobPattern [sampleRec 5]).kind = .irregular := by
  have h := analyze_insufficient (l := [sampleRec 5]) (by norm_num)
  refine ⟨by simp, ?_, ?_, ?_, ?_⟩
  · simp [periodicCond]
  · norm_num [detectBurstPattern]
  · rw [h]
  · rw [h]
    simp

/-- C7 (amended): for every record group with at least 2 records on
which both the periodic and the burst tests fail, the analyzer returns
the definite irregular summary with confidence 0.4,
`avg_interval = avg`, and a variability equal to `std/avg` — stored here
as its square, with `√variabilitySq = √variance / avg` whenever
`0 < avg` — substituting 1 when `avg` is not positive, so the division
by zero never occurs.  (The at-least-2-records proviso is forced: a
single-record group fails both tests but is classified
`insufficient_data`, see the counterexample.) -/
theorem irregular_fallback (l : List JobExecution)
    (h2 : 2 ≤ l.length) (hp : ¬ periodicCond l)
    (hb : detectBurstPattern l = false) :
    analyzeJobPattern l = ⟨.irregular, 4/10, none, none, some (mean (intervalsOf l)),
      some (if 0 < mean (intervalsOf l) then
        variance (intervalsOf l) / (mean (intervalsOf l)) ^ 2 else 1)⟩ ∧
    (mean (intervalsOf l) = 0 → (analyzeJobPattern l).variabilitySq = some 1) ∧
    (0 < mean (intervalsOf l) →
      Real.sqrt ((((analyzeJobPattern l).variabilitySq).getD 0 : ℚ) : ℝ) =
        Real.sqrt ((variance (intervalsOf l) : ℚ) : ℝ) /
          ((mean (intervalsOf l) : ℚ) : ℝ)) := by
  have hmain := analyze_irregular h2 hp hb
  refine ⟨hmain, ?_, ?_⟩
  · intro h0
    rw [hmain]
    simp [h0]
  · intro hpos
    rw [hmain]
    simp only [if_pos hpos, Option.getD_some]
    push_cast
    rw [Real.sqrt_div (by exact_mod_cast variance_nonneg (intervalsOf l)),
      Real.sqrt_sq (by exact_mod_cast hpos.le)]

/-- Witness for the amended C7: the 3-record group at timestamps
0, 0, 100 (gaps 0 and 100: mean 50, variance 2500) is irregular with
variability `std/avg = 50/50 = 1`. -/
theorem irregular_fallback_witness :
    analyzeJobPattern [sampleRec 0, sampleRec 0, sampleRec 100] =
      ⟨.irregular, 4/10, none, none, some 50, some 1⟩ ∧
    Real.sqrt ((((analyzeJobPattern [sampleRec 0, sampleRec 0, sampleRec 100]).variabilitySq).getD 0
        : ℚ) : ℝ) =
      Real.sqrt ((variance (intervalsOf [sampleRec 0, sampleRec 0, sampleRec 100]) : ℚ) : ℝ) /
        ((mean (intervalsOf [sampleRec 0, sampleRec 0, sampleRec 100]) : ℚ) : ℝ) := by
  have h := irregular_fallback [sampleRec 0, sampleRec 0, sampleRec 100]
    (by norm_num)
    (by norm_num [periodicCond, stdLtCond, variance, mean, intervalsOf, sampleRec])
    (by norm_num [detectBurstPattern])
  refine ⟨?_, h.2.2 (by norm_num [mean, intervalsOf, sampleRec])⟩
  rw [h.1]
  norm_num [mean, variance, intervalsOf, sampleRec]

/-- C8: the generator's output is sorted by confidence in descending
order; it is a permutation of the per-summary results, and for every
confidence value the equal-confidence predictions appear in exactly the
input (job-insertion) order — so the tie order is a function of the
input alone, and repeated calls on the same inputs produce the same
relative order. -/
theorem predictions_sorted_deterministic (patterns : List (String × PatternSummary))
    (t : ℚ) :
    (predictNextJobs patterns t).Pairwise confGe ∧
    (predictNextJobs patterns t).Perm (generateAll patterns t) ∧
    (∀ c : ℚ, (predictNextJobs patterns t).filter
        (fun p => decide (p.confidence_score = c)) =
      (generateAll patterns t).filter (fun p => decide (p.confidence_score = c))) :=
  ⟨sortByConfidenceDesc_pairwise _, sortByConfidenceDesc_perm _,
    fun c => sortByConfidenceDesc_filter c _⟩

/-- C9: summaries of kind `insufficient_data` or `irregular` never yield
a prediction, regardless of confidence; every emitted prediction comes
from an input summary whose generation test passed, with at most one
prediction per job id when the input keys are distinct; and an empty
summaries mapping yields an empty prediction list. -/
theorem generator_eligibility (patterns : List (String × PatternSummary)) (t : ℚ) :
    (∀ (jid : String) (s : PatternSummary),
      s.kind = .insufficient_data ∨ s.kind = .irregular →
        generatePrediction jid s t = none) ∧
    (∀ p ∈ predictNextJobs patterns t, ∃ q ∈ patterns,
      q.1 = p.job_id ∧ generatePrediction q.1 q.2 t = some p) ∧
    ((patterns.map Prod.fst).Nodup →
      ((predictNextJobs patterns t).map PredictionResult.job_id).Nodup) ∧
    predictNextJobs [] t = [] := by
  refine ⟨fun jid s h => generatePrediction_ineligible h, ?_, ?_, rfl⟩
  · intro p hp
    have hp' : p ∈ generateAll patterns t :=
      (sortByConfidenceDesc_perm (generateAll patterns t)).subset hp
    rcases List.mem_filterMap.mp hp' with ⟨q, hq, hgen⟩
    exact ⟨q, hq, (generatePrediction_job_id hgen).symm, hgen⟩
  · intro hnd
    have hperm :=
      (sortByConfidenceDesc_perm (generateAll patterns t)).map PredictionResult.job_id
    show (List.map PredictionResult.job_id
      (sortByConfidenceDesc (generateAll patterns t))).Nodup
    rw [hperm.nodup_iff]
    exact (generateAll_jobIds_sublist patterns t).nodup hnd

/-- Witness for C9: an irregular summary of high confidence 0.99 and an
insufficient-data one yield nothing; a singleton bursty input keeps
distinct job ids in the output; the empty input yields the empty list. -/
theorem generator_eligibility_witness :
    generatePrediction "a" ⟨.irregular, 99/100, none, none, none, none⟩ 0 = none ∧
    generatePrediction "b" ⟨.insufficient_data, 99/100, none, none, none, none⟩ 0 = none ∧
    ((predictNextJobs [("c", ⟨.bursty, 7/10, none, none, none, none⟩)] 0).map
      PredictionResult.job_id).Nodup ∧
    predictNextJobs [] 0 = [] :=
  ⟨(generator_eligibility [] 0).1 "a" _ (Or.inr rfl),
   (generator_eligibility [] 0).1 "b" _ (Or.inl rfl),
   (generator_eligibility [("c", ⟨.bursty, 7/10, none, none, none, none⟩)] 0).2.2.1
     (by simp),
   (generator_eligibility [] 0).2.2.2⟩

/-- C10: every prediction the generator can emit from an analyzer summary
carries action `prewarm`: periodic summaries get the fixed confidence
0.9 > 0.7, and the bursty branch hardcodes `prewarm`, so the `skip`
branch is unreachable on analyzer output. -/
theorem emitted_prediction_prewarm (l : List JobExecution) (jid : String) (t : ℚ)
    (p : PredictionResult)
    (h : generatePrediction jid (analyzeJobPattern l) t = some p) :
    p.action = "prewarm" := by
  obtain hs | ⟨a, b, hs⟩ | hs | ⟨a, v, hs⟩ := analyzeJobPattern_shape l <;> rw [hs] at h
  · rw [generatePrediction_ineligible (Or.inl rfl)] at h
    exact Option.noConfusion h
  · rw [generatePrediction_periodic] at h
    split at h
    · rcases Option.some.inj h with rfl
      have h79 : (7 : ℚ)/10 < 9/10 := by norm_num
      simp [h79]
    · exact Option.noConfusion h
  · rw [generatePrediction_bursty,
      if_pos (by norm_num : (6 : ℚ)/10 < 7/10)] at h
    rcases Option.some.inj h with rfl
    rfl
  · rw [generatePrediction_ineligible (Or.inr rfl)] at h
    exact Option.noConfusion h

/-- Witness for C10: the periodic group at 0, 100, 200 queried 100 s
before its predicted next run emits a prediction, and its action is
`prewarm`. -/
theorem emitted_prediction_prewarm_witness :
    ({ job_id := "job", predicted_run_time_window := "3:20 minutes",
       confidence_score := 9/10, action := "prewarm",
       reasoning := "Cron pattern detected with 100s intervals" } :
      PredictionResult).action = "prewarm" :=
  emitted_prediction_prewarm [sampleRec 0, sampleRec 100, sampleRec 200] "job" 100 _
    (by
      have ha : analyzeJobPattern [sampleRec 0, sampleRec 100, sampleRec 200] =
          ⟨.periodic, 9/10, some 100, some 300, none, none⟩ := by
        norm_num [analyzeJobPattern, intervalsOf, mean, variance, stdLtCond,
          lastTimestamp, sampleRec]
      rw [ha, generatePrediction_periodic, if_pos (by norm_num)]
      have hw : minutesSecondsWindow ((300 : ℚ) - 100) = "3:20 minutes" := by
        have h1 : pythonInt (((300 : ℚ) - 100) / 60) = 3 := by norm_num [pythonInt]
        have h2 : pythonInt (qmod ((300 : ℚ) - 100) 60) = 20 := by
          norm_num [pythonInt, qmod]
        rw [minutesSecondsWindow, h1, h2]
        rfl
      have hr : cronReasoning (some (100 : ℚ)) =
          "Cron pattern detected with 100s intervals" := by
        have hround : roundHalfToEven (100 : ℚ) = 100 := by
          norm_num [roundHalfToEven]
        unfold cronReasoning
        rw [Option.getD_some, hround]
        rfl
      rw [hw, hr, if_pos (by norm_num : (7 : ℚ)/10 < 9/10)])

end ColdStart
